import Mathlib

/-!
Verification development for the slack-bot core of this repository
(src/servers/claude-code-slack-bot/src/slack-handler.ts, including the
SecretMasker section).  The TypeScript source is shallowly embedded below:
pure helpers become Lean functions, the stateful handler becomes explicit
state passing over a handler-state structure, and the chat transport is
recorded as an explicit trace of operations.  JavaScript strings are
modelled as Lean strings ("units" of the size ceiling are characters),
JS truthiness of strings as emptiness tests, and nullable values as
Option.
-/

set_option autoImplicit false

namespace SlackBot

/-! ## Generic string machinery (character-list scanners)

The JS source uses String.prototype.replace with global regexes and
Array.prototype.split/join.  These are modelled by explicit left-to-right
scanners over character lists.  Scanners that skip a matched region use a
fuel argument equal to the input length; every step consumes at least one
character, so the fuel never runs out on the wrapper's call. -/

/-- Leftmost, non-overlapping replacement of every occurrence of
`needle` by `repl` in the scanned list; this is the JS idiom
`hay.split(needle).join(repl)` for a non-empty `needle` (the source only
ever calls it with secrets of length at least 8). -/
def replAllGo (needle repl : List Char) : Nat → List Char → List Char
  | 0, l => l
  | _ + 1, [] => []
  | fuel + 1, c :: rest =>
    if needle ≠ [] ∧ needle.isPrefixOf (c :: rest) then
      repl ++ replAllGo needle repl fuel ((c :: rest).drop needle.length)
    else
      c :: replAllGo needle repl fuel rest

def replAll (needle repl hay : List Char) : List Char :=
  replAllGo needle repl hay.length hay

/-- JS `hay.includes(needle)` on strings: substring containment. -/
def containsSub : List Char → List Char → Bool
  | [], needle => needle.isEmpty
  | h :: t, needle => needle.isPrefixOf (h :: t) || containsSub t needle

/-- Length of the maximal leading run of characters satisfying `f`. -/
def leadRunLen (f : Char → Bool) : List Char → Nat
  | [] => 0
  | c :: t => if f c then leadRunLen f t + 1 else 0

/-! ## SecretMasker (source: secret-masker.ts)

The fixed SECRET_PATTERNS regexes all have the shape: a literal, an
optional mandatory whitespace run, then a greedy character-class
repetition with a minimum count.  Because whitespace never belongs to any
of the classes, JS backtracking never changes the greedy runs, so each
regex is faithfully captured by this shape. -/

def sepCls (c : Char) : Bool := c.isAlpha || c = '_' || c = '-'

def sepEnd (c : Char) : Bool := c = '-' || c = '_'

/-- Largest j with 2 ≤ j ≤ r such that the (j-1)-th character is a
separator; this is the greedy-with-backtracking match length of the
anchored regex group of maskValue, caret ([a-zA-Z_\-]+[-_]), where r is
the maximal leading run of the bracket class. -/
def lastSepIdx (l : List Char) : Nat → Option Nat
  | 0 => none
  | j + 1 =>
    if 1 ≤ j ∧ (l.get? j).any sepEnd = true then
      some (j + 1)
    else lastSepIdx l j

/-- Source `maskValue` (secret-masker.ts lines 783-792): values shorter
than 8 become "***"; otherwise keep a natural prefix (up to the last
separator of the leading word run, else the first 4 characters) and the
final 4 characters around an ellipsis. -/
def maskValue (value : String) : String :=
  if value.length < 8 then "***"
  else
    let cs := value.data
    let pfx :=
      match lastSepIdx cs (leadRunLen sepCls cs) with
      | some j => String.mk (cs.take j)
      | none => String.mk (cs.take 4)
    let sfx := String.mk (cs.drop (cs.length - 4))
    pfx ++ "..." ++ sfx

/-- One entry of SECRET_PATTERNS: literal head, whether a mandatory
whitespace run follows it, the repeated character class and its minimum
repetition count. -/
structure SecretPattern where
  lit : List Char
  ws : Bool
  cls : Char → Bool
  minRep : Nat

def wsChar (c : Char) : Bool := c = ' ' || c = '\t' || c = '\n' || c = '\r'

def clsAlnumDash (c : Char) : Bool := c.isAlphanum || c = '-'

def clsAlnum (c : Char) : Bool := c.isAlphanum

def clsAlnumUnderscore (c : Char) : Bool := c.isAlphanum || c = '_'

def clsBearer (c : Char) : Bool := c.isAlphanum || c = '.' || c = '_' || c = '-'

def clsBasic (c : Char) : Bool := c.isAlphanum || c = '+' || c = '/' || c = '='

/-- The fixed SECRET_PATTERNS list, in source order (secret-masker.ts
lines 767-781). -/
def SECRET_PATTERNS : List SecretPattern :=
  [⟨"xoxb-".data, false, clsAlnumDash, 1⟩,
   ⟨"xapp-".data, false, clsAlnumDash, 1⟩,
   ⟨"xoxp-".data, false, clsAlnumDash, 1⟩,
   ⟨"xoxs-".data, false, clsAlnumDash, 1⟩,
   ⟨"sk-ant-".data, false, clsAlnumDash, 1⟩,
   ⟨"sk-".data, false, clsAlnum, 20⟩,
   ⟨"ghp_".data, false, clsAlnum, 36⟩,
   ⟨"ghs_".data, false, clsAlnum, 36⟩,
   ⟨"gho_".data, false, clsAlnum, 36⟩,
   ⟨"github_pat_".data, false, clsAlnumUnderscore, 20⟩,
   ⟨"glpat-".data, false, clsAlnumDash, 20⟩,
   ⟨"Bearer".data, true, clsBearer, 20⟩,
   ⟨"Basic".data, true, clsBasic, 20⟩]

/-- Try to match pattern `p` at the position whose first character is `c`
and remainder is `rest`; on success return the matched characters and how
many characters of `rest` the match consumed. -/
def matchAtHead (p : SecretPattern) (c : Char) (rest : List Char) :
    Option (List Char × Nat) :=
  match p.lit with
  | [] => none
  | l :: ls =>
    if c = l ∧ ls.isPrefixOf rest then
      let r1 := rest.drop ls.length
      if p.ws then
        let w := leadRunLen wsChar r1
        if w = 0 then none
        else
          let r2 := r1.drop w
          let run := leadRunLen p.cls r2
          if run ≥ p.minRep then
            some (l :: (ls ++ r1.take w ++ r2.take run),
                  ls.length + w + run)
          else none
      else
        let run := leadRunLen p.cls r1
        if run ≥ p.minRep then
          some (l :: (ls ++ r1.take run), ls.length + run)
        else none
    else none

/-- JS `text.replace(pattern, m => maskValue(m))` for one global pattern:
scan left to right, replace each leftmost match, continue after it;
replacements are not rescanned. -/
def scanPatGo (p : SecretPattern) : Nat → List Char → List Char
  | 0, l => l
  | _ + 1, [] => []
  | fuel + 1, c :: rest =>
    match matchAtHead p c rest with
    | some (m, k) => (maskValue (String.mk m)).data ++ scanPatGo p fuel (rest.drop k)
    | none => c :: scanPatGo p fuel rest

def scanPat (p : SecretPattern) (l : List Char) : List Char :=
  scanPatGo p l.length l

/-- Source `SecretMasker.maskText` (secret-masker.ts lines 821-841),
parameterized by the known env secret values (collectEnvSecrets only
keeps values of length at least 8 and stores them with their
`maskValue`): first replace each known secret value when present, then
apply each SECRET_PATTERNS regex in order. -/
def maskText (secrets : List String) (text : String) : String :=
  if text = "" then text
  else
    let step1 := secrets.foldl
      (fun acc v =>
        if containsSub acc.data v.data then
          String.mk (replAll v.data (maskValue v).data acc.data)
        else acc)
      text
    SECRET_PATTERNS.foldl (fun acc p => String.mk (scanPat p acc.data)) step1

/-! ## Data model: todos, SDK messages, tool inputs -/

inductive TodoStatus where
  | pending
  | in_progress
  | completed
deriving DecidableEq, Repr

/-- A TodoItem: description plus status (todo-manager.ts `Todo`). -/
structure Todo where
  content : String
  status : TodoStatus
deriving DecidableEq, Repr

structure EditHunk where
  old_string : String
  new_string : String
deriving DecidableEq, Repr

/-- The duck-typed `input` object of a tool_use block, modelled as a
record carrying every field the handler reads; fields the concrete tool
does not use stay at their defaults. -/
structure ToolInput where
  file_path : String := ""
  old_string : String := ""
  new_string : String := ""
  edits : List EditHunk := []
  content : String := ""
  command : String := ""
  todos : Option (List Todo) := none
deriving DecidableEq, Repr

inductive ContentBlock where
  | text (s : String)
  | toolUse (name : String) (input : ToolInput)
deriving DecidableEq, Repr

/-- The tagged backend events the dispatcher consumes: assistant content
or a terminal result (`subtype`, optional result text; a JS-absent or
empty result is `none` / `some ""`). -/
inductive SDKMessage where
  | assistant (content : List ContentBlock)
  | result (subtype : String) (result : Option String)
deriving DecidableEq, Repr

/-! ## Tool formatting (slack-handler.ts lines 349-437) -/

/-- Source `truncateString`. -/
def truncateString (str : String) (maxLength : Nat) : String :=
  if str = "" then ""
  else if str.length ≤ maxLength then str
  else str.take maxLength ++ "..."

/-- Source `formatEditTool`: header naming the file, one diff block per
hunk with old/new text truncated to 200. -/
def formatEditTool (toolName : String) (input : ToolInput) : String :=
  let edits := if toolName = "MultiEdit" then input.edits
               else [⟨input.old_string, input.new_string⟩]
  edits.foldl
    (fun r e =>
      r ++ "\n```diff\n- " ++ truncateString e.old_string 200 ++ "\n+ "
        ++ truncateString e.new_string 200 ++ "\n```")
    ("📝 *Editing `" ++ input.file_path ++ "`*\n")

/-- Source `formatWriteTool`: header naming the file plus a fenced
preview truncated to 300. -/
def formatWriteTool (input : ToolInput) : String :=
  "📄 *Creating `" ++ input.file_path ++ "`*\n```\n"
    ++ truncateString input.content 300 ++ "\n```"

def formatReadTool (input : ToolInput) : String :=
  "👁️ *Reading `" ++ input.file_path ++ "`*"

def formatBashTool (input : ToolInput) : String :=
  "🖥️ *Running command:*\n```bash\n" ++ input.command ++ "\n```"

def formatGenericTool (toolName : String) (_input : ToolInput) : String :=
  "🔧 *Using " ++ toolName ++ "*"

/-- Source `handleTodoWrite`: always the empty string (the todo list is
diverted to the progress tracker, not rendered as a content part). -/
def handleTodoWrite (_input : ToolInput) : String := ""

/-- Source `formatToolUse`: renders each block per the per-tool rule and
joins with blank-line separators; a TodoWrite block makes the whole
function return `handleTodoWrite`'s empty string immediately. -/
def formatToolUseGo (acc : List String) : List ContentBlock → String
  | [] => String.intercalate "\n\n" acc.reverse
  | .text s :: rest => formatToolUseGo (s :: acc) rest
  | .toolUse name input :: rest =>
    if name = "Edit" ∨ name = "MultiEdit" then
      formatToolUseGo (formatEditTool name input :: acc) rest
    else if name = "Write" then formatToolUseGo (formatWriteTool input :: acc) rest
    else if name = "Read" then formatToolUseGo (formatReadTool input :: acc) rest
    else if name = "Bash" then formatToolUseGo (formatBashTool input :: acc) rest
    else if name = "TodoWrite" then handleTodoWrite input
    else formatToolUseGo (formatGenericTool name input :: acc) rest

def formatToolUse (content : List ContentBlock) : String :=
  formatToolUseGo [] content

/-- Source `extractTextContent`: join the text blocks of an assistant
message with the empty separator. -/
def extractTextContent (content : List ContentBlock) : String :=
  String.join (content.filterMap (fun b =>
    match b with
    | .text s => some s
    | .toolUse _ _ => none))

/-! ## formatMessage (slack-handler.ts lines 654-664)

Four sequential global regex replaces: strip the language tag of fenced
code blocks, the identity replace on inline code, bold ** to *, and
underline __ to _.  Each is a left-to-right scanner. -/

def btick : Char := Char.ofNat 96

def wCls (c : Char) : Bool := c.isAlphanum || c = '_'

/-- Split at the first occurrence of three backticks: characters before
it and characters after it. -/
def splitAtTicks : List Char → Option (List Char × List Char)
  | [] => none
  | c :: rest =>
    if c = btick ∧ [btick, btick].isPrefixOf rest then some ([], rest.drop 2)
    else
      match splitAtTicks rest with
      | some (pre, post) => some (c :: pre, post)
      | none => none

/-- Match the fenced-code regex at the current position (first char `c`,
remainder `rest`): three backticks, an optional word run, a newline, the
lazy body up to the next three backticks.  Returns the replacement
(backticks plus body, dropping the language tag and its newline) and the
number of characters of `rest` consumed. -/
def fenceMatchAt (c : Char) (rest : List Char) : Option (List Char × Nat) :=
  if c = btick ∧ [btick, btick].isPrefixOf rest then
    let r1 := rest.drop 2
    let langLen := leadRunLen wCls r1
    match r1.drop langLen with
    | nl :: r3 =>
      if nl = '\n' then
        match splitAtTicks r3 with
        | some (code, _) =>
          some ([btick, btick, btick] ++ code ++ [btick, btick, btick],
                2 + langLen + 1 + code.length + 3)
        | none => none
      else none
    | [] => none
  else none

def fmtFenceGo : Nat → List Char → List Char
  | 0, l => l
  | _ + 1, [] => []
  | fuel + 1, c :: rest =>
    match fenceMatchAt c rest with
    | some (repl, k) => repl ++ fmtFenceGo fuel (rest.drop k)
    | none => c :: fmtFenceGo fuel rest

def fmtFence (l : List Char) : List Char := fmtFenceGo l.length l

/-- The inline-code replace substitutes each match by itself, so it is
the identity transformation. -/
def fmtInlineCode (l : List Char) : List Char := l

/-- Match a delimited emphasis span at the current position: `d` twice,
a non-empty run without `d`, `d` twice; replacement keeps single
delimiters. -/
def emphMatchAt (d : Char) (c : Char) (rest : List Char) :
    Option (List Char × Nat) :=
  match rest with
  | r0 :: r1 =>
    if c = d ∧ r0 = d then
      let run := leadRunLen (fun ch => ch ≠ d) r1
      if 1 ≤ run ∧ [d, d].isPrefixOf (r1.drop run) then
        some (d :: (r1.take run ++ [d]), 1 + run + 2)
      else none
    else none
  | [] => none

def fmtEmphGo (d : Char) : Nat → List Char → List Char
  | 0, l => l
  | _ + 1, [] => []
  | fuel + 1, c :: rest =>
    match emphMatchAt d c rest with
    | some (repl, k) => repl ++ fmtEmphGo d fuel (rest.drop k)
    | none => c :: fmtEmphGo d fuel rest

def fmtEmph (d : Char) (l : List Char) : List Char := fmtEmphGo d l.length l

/-- Source `formatMessage` (the `isFinal` flag is accepted and ignored,
as in the source). -/
def formatMessage (text : String) (_isFinal : Bool) : String :=
  String.mk (fmtEmph '_' (fmtEmph '*' (fmtInlineCode (fmtFence text.data))))

/-! ## Chat transport trace and handler state

The chat transport is recorded as a trace of operations.  Posted
messages are identified by a counter (`nextTs`); `post` and `update`
carry the text actually transmitted (after masking).  The ghost fields
`composed` (the pre-mask text of each post/update, in order) and
`statuses` (the status header of the initial post and of each effective
`updateResponse` invocation) instrument the model without altering its
behavior. -/

inductive ChatOp where
  | post (ts : Nat) (text : String)
  | update (ts : Nat) (text : String)
  | reactAdd (name : String)
  | reactRemove (name : String)
deriving DecidableEq, Repr

/-- Per-turn handler state: the trace so far plus the mutable locals of
`handleMessage` (currentMessages, contentParts, responseMessageTs) and
the per-session-key entries of the class maps this turn touches
(originalMessages presence, currentReactions, todoManager todos,
todoMessages). -/
structure HSt where
  nextTs : Nat := 0
  ops : List ChatOp := []
  composed : List String := []
  statuses : List (String × String) := []
  currentMessages : List String := []
  contentParts : List String := []
  responseMessageTs : Option Nat := none
  origMsgPresent : Bool := true
  currentReaction : Option String := none
  todos : List Todo := []
  todoMessageTs : Option Nat := none
deriving DecidableEq, Repr

/-- Source `maskedSay` (lines 578-580): every posted text goes through
`maskText` immediately before transmission.  Returns the new message's
identity, as `say` does. -/
def sendPost (km : List String) (t : String) (st : HSt) : HSt × Nat :=
  ({ st with
      nextTs := st.nextTs + 1,
      ops := st.ops ++ [ChatOp.post st.nextTs (maskText km t)],
      composed := st.composed ++ [t] },
   st.nextTs)

/-- Source `maskedChatUpdate` (lines 582-587): every updated text goes
through `maskText` immediately before transmission. -/
def sendUpdate (km : List String) (ts : Nat) (t : String) (st : HSt) : HSt :=
  { st with
      ops := st.ops ++ [ChatOp.update ts (maskText km t)],
      composed := st.composed ++ [t] }

/-- `parts.join(sep)` of a JS array. -/
def joinSep (sep : String) : List String → String
  | [] => ""
  | [s] => s
  | s :: rest => s ++ sep ++ joinSep sep rest

def SLACK_MAX_LENGTH : Nat := 39000

/-- Source `buildResponseText` (lines 189-193): the status header alone
when no parts are buffered, else the header followed by all parts joined
with the visible separator. -/
def buildResponseText (contentParts : List String) (statusEmoji statusText : String) : String :=
  let header := statusEmoji ++ " *" ++ statusText ++ "*"
  if contentParts.length = 0 then header
  else header ++ "\n\n" ++ joinSep "\n\n---\n\n" contentParts

/-- Source `updateResponse` (lines 196-224): nothing happens before the
first post; otherwise either an in-place update, or — when the rendered
text exceeds the ceiling and more than one part is buffered — the
overflow split: detach the last part, finalize the current message with
the rest, post a new message holding only the detached part, and retarget
subsequent updates at it. -/
def updateResponse (km : List String) (statusEmoji statusText : String) (st : HSt) : HSt :=
  match st.responseMessageTs with
  | none => st
  | some ts =>
    let fullText := buildResponseText st.contentParts statusEmoji statusText
    if SLACK_MAX_LENGTH < fullText.length ∧ 1 < st.contentParts.length then
      let latestPart := st.contentParts.getLastD ""
      let st1 := { st with contentParts := st.contentParts.dropLast }
      let st2 := sendUpdate km ts (buildResponseText st1.contentParts statusEmoji statusText) st1
      let st3 := { st2 with contentParts := [latestPart] }
      let st4ts := sendPost km (buildResponseText st3.contentParts statusEmoji statusText) st3
      { st4ts.1 with
          responseMessageTs := some st4ts.2,
          statuses := st4ts.1.statuses ++ [(statusEmoji, statusText)] }
    else
      let st1 := sendUpdate km ts fullText st
      { st1 with statuses := st1.statuses ++ [(statusEmoji, statusText)] }

/-- Source `updateMessageReaction` (lines 507-555): no original message
or an unchanged marker is a no-op; otherwise remove the previous marker
(failure tolerated), add the new one, and record it only if the add
succeeded (`addFails` models a throwing `reactions.add`). -/
def updateMessageReaction (emoji : String) (addFails : Bool) (st : HSt) : HSt :=
  if !st.origMsgPresent then st
  else if st.currentReaction = some emoji then st
  else
    let removeOps :=
      match st.currentReaction with
      | some c => [ChatOp.reactRemove c]
      | none => []
    if addFails then { st with ops := st.ops ++ removeOps ++ [ChatOp.reactAdd emoji] }
    else
      { st with
          ops := st.ops ++ removeOps ++ [ChatOp.reactAdd emoji],
          currentReaction := some emoji }

/-- The aggregate status marker of `updateTaskProgressReaction` (lines
557-576): none for an empty list (the source returns early), else done
when every item is completed, progress when any is in progress, pending
otherwise, computed by the source's counting. -/
def aggMarker (todos : List Todo) : Option String :=
  if todos.length = 0 then none
  else
    let completed := (todos.filter (fun t => t.status = TodoStatus.completed)).length
    let inProgress := (todos.filter (fun t => t.status = TodoStatus.in_progress)).length
    let total := todos.length
    if completed = total then some "✅"
    else if 0 < inProgress then some "🔄"
    else some "📋"

def updateTaskProgressReaction (addFails : Bool) (todos : List Todo) (st : HSt) : HSt :=
  match aggMarker todos with
  | none => st
  | some e => updateMessageReaction e addFails st

/-! ## Progress tracker (todo-manager.ts is not under src/)

The todo manager's functions are modelled from the spec, which defines
their contracts in sections 4.4 and 8. -/

/-- Modelled from the spec: `isSignificant(old, new)` of the missing
todo-manager.ts is true iff the two ordered sequences differ in length
or in any item's status. -/
def hasSignificantChange (oldTodos newTodos : List Todo) : Bool :=
  oldTodos.length ≠ newTodos.length
    || (List.zip oldTodos newTodos).any (fun p => p.1.status ≠ p.2.status)

def statusGlyph : TodoStatus → String
  | .pending => "⬜"
  | .in_progress => "🔄"
  | .completed => "✅"

/-- Modelled from the spec: `render(todos)` of the missing
todo-manager.ts — a checklist, one status glyph plus description per
line, in input order. -/
def formatTodoList (todos : List Todo) : String :=
  "📋 *Task List:*\n"
    ++ String.intercalate "\n" (todos.map (fun t => statusGlyph t.status ++ " " ++ t.content))

/-- Modelled from the spec: `diffSummary(old, new)` of the missing
todo-manager.ts — a note of the items whose status changed, or absent
when none did. -/
def getStatusChange (oldTodos newTodos : List Todo) : Option String :=
  let changed := (List.zip oldTodos newTodos).filter (fun p => p.1.status ≠ p.2.status)
  if changed.isEmpty then none
  else some (String.intercalate "\n"
    (changed.map (fun p => p.2.content ++ " → " ++ statusGlyph p.2.status)))

/-- Source `createNewTodoMessage` (lines 489-505): post the list and
record the new message's identity. -/
def createNewTodoMessage (km : List String) (todoList : String) (st : HSt) : HSt :=
  let stTs := sendPost km todoList st
  { stTs.1 with todoMessageTs := some stTs.2 }

/-- Source `handleTodoUpdate` (lines 439-487): on a significant change,
store the new todos, update the persistent task-list message in place
(falling back to a new post when the update fails), post the diff
summary when present, and recompute the aggregate marker. -/
def handleTodoUpdate (km : List String) (todoUpdateFails addFails : Bool)
    (input : ToolInput) (sessionId : Option String) (st : HSt) : HSt :=
  match sessionId, input.todos with
  | none, _ => st
  | some _, none => st
  | some _, some newTodos =>
    let oldTodos := st.todos
    if hasSignificantChange oldTodos newTodos then
      let st1 := { st with todos := newTodos }
      let todoList := formatTodoList newTodos
      let st2 :=
        match st1.todoMessageTs with
        | some ts =>
          if todoUpdateFails then
            createNewTodoMessage km todoList (sendUpdate km ts todoList st1)
          else sendUpdate km ts todoList st1
        | none => createNewTodoMessage km todoList st1
      let st3 :=
        match getStatusChange oldTodos newTodos with
        | some sc => (sendPost km ("🔄 *Task Update:*\n" ++ sc) st2).1
        | none => st2
      updateTaskProgressReaction addFails newTodos st3
    else st

/-! ## Stream dispatcher (the body of handleMessage's for-await loop,
lines 252-305, and its try/catch epilogue, lines 307-330) -/

/-- Turn configuration: the known secret values, the transport failure
flags, and the backend-assigned session identifier visible to todo
handling during this turn. -/
structure Cfg where
  km : List String := []
  addFails : Bool := false
  todoUpdateFails : Bool := false
  sessionId : Option String := none
deriving Repr

def isToolUseBlock : ContentBlock → Bool
  | .toolUse _ _ => true
  | .text _ => false

def isTodoWriteBlock : ContentBlock → Bool
  | .toolUse n _ => n = "TodoWrite"
  | .text _ => false

/-- Processing of one backend event (loop body, lines 261-304). -/
def stepEvent (cfg : Cfg) (m : SDKMessage) (st : HSt) : HSt :=
  match m with
  | .assistant content =>
    if content.any isToolUseBlock then
      let st1 := updateMessageReaction "⚙️" cfg.addFails st
      let st2 :=
        match content.find? isTodoWriteBlock with
        | some (.toolUse _ input) =>
          handleTodoUpdate cfg.km cfg.todoUpdateFails cfg.addFails input cfg.sessionId st1
        | _ => st1
      let toolContent := formatToolUse content
      if toolContent ≠ "" then
        updateResponse cfg.km "⚙️" "Working..."
          { st2 with contentParts := st2.contentParts ++ [toolContent] }
      else st2
    else
      let text := extractTextContent content
      if text ≠ "" then
        let st1 := { st with currentMessages := st.currentMessages ++ [text] }
        updateResponse cfg.km "⚙️" "Working..."
          { st1 with contentParts := st1.contentParts ++ [formatMessage text false] }
      else st
  | .result subtype result =>
    if subtype = "success" then
      match result with
      | some r =>
        if r ≠ "" ∧ ¬ st.currentMessages.contains r then
          { st with contentParts := st.contentParts ++ [formatMessage r true] }
        else st
      | none => st
    else st

def runLoop (cfg : Cfg) (events : List SDKMessage) (st : HSt) : HSt :=
  events.foldl (fun s m => stepEvent cfg m s) st

/-- How the backend stream terminates after its events when no
cancellation intervenes: normally, or with an error carrying a name and
message (`name = "AbortError"` identifies a cancellation). -/
inductive StreamTerm where
  | ok
  | err (name : String) (msg : String)
deriving DecidableEq, Repr

/-- One full turn (lines 226-330): post the initial Thinking message,
consume the stream, and finalize.  `abortAt = some a` means the turn's
cancellation token is signalled after `a` events have been consumed.
Modelled from the spec for the missing claude-handler.ts backend: a
signalled token makes the next pull of `streamQuery` raise an
AbortError (the stream "terminating … on cancellation", spec section 6),
so events past the signal are never delivered and the catch branch for
AbortError (lines 325-330) finalizes the turn as Cancelled; the loop's
own `if (aborted) break` guard never observes a delivered event after
the signal.  A signal arriving only after the stream already finished
(`a` beyond the event count) has no effect on the turn. -/
def runTurn (cfg : Cfg) (events : List SDKMessage) (abortAt : Option Nat)
    (term : StreamTerm) (st0 : HSt) : HSt :=
  let stTs := sendPost cfg.km "🤔 *Thinking...*" st0
  let st1 := { stTs.1 with
                responseMessageTs := some stTs.2,
                statuses := stTs.1.statuses ++ [("🤔", "Thinking...")] }
  let st2 := updateMessageReaction "🤔" cfg.addFails st1
  let cutoff := match abortAt with
    | some a => min a events.length
    | none => events.length
  let st3 := runLoop cfg (events.take cutoff) st2
  let aborted : Bool := match abortAt with
    | some a => decide (a ≤ events.length)
    | none => false
  if aborted then
    let st4 := updateResponse cfg.km "⏹️" "Cancelled" st3
    updateMessageReaction "⏹️" cfg.addFails st4
  else
    match term with
    | .ok =>
      let st4 := updateResponse cfg.km "✅" "Done" st3
      updateMessageReaction "✅" cfg.addFails st4
    | .err name msg =>
      if name = "AbortError" then
        let st4 := updateResponse cfg.km "⏹️" "Cancelled" st3
        updateMessageReaction "⏹️" cfg.addFails st4
      else
        let st4 := { st3 with
          contentParts := st3.contentParts
            ++ ["❌ Error: " ++ (if msg = "" then "Something went wrong" else msg)] }
        let st5 := updateResponse cfg.km "❌" "Error occurred" st4
        updateMessageReaction "❌" cfg.addFails st5

/-! ## The handler entry point (handleMessage, lines 55-347) and the
registry of per-key maps -/

/-- JS truthiness of an optional string. -/
def textFalsy : Option String → Bool
  | none => true
  | some s => s = ""

/-- `thread_ts || ts`. -/
def threadOr (thread_ts : Option String) (ts : String) : String :=
  match thread_ts with
  | some s => if s = "" then ts else s
  | none => ts

/-- An inbound message event (the fields of `MessageEvent` the handler
reads; `hasFiles` stands for a non-empty `files` array). -/
structure Event where
  user : String := ""
  channel : String := ""
  thread_ts : Option String := none
  ts : String := ""
  text : Option String := none
  hasFiles : Bool := false
deriving Repr

/-- Results of the external collaborators the handler consults, treated
as oracle inputs: the file handler (downloadAndProcessFiles), the
working-directory manager, the MCP manager (the command predicates are
text-derived; no claim depends on their value, so they are supplied as
booleans), and the backend stream of this turn. -/
structure Oracles where
  km : List String := []
  processedFiles : List String := []
  parseSetResult : Option String := none
  setDirSuccess : Bool := true
  setDirResolvedPath : String := ""
  setDirError : String := ""
  isGetCmd : Bool := false
  dirMessage : String := ""
  isMcpInfo : Bool := false
  isMcpReload : Bool := false
  mcpInfo : String := ""
  mcpReloadOk : Bool := true
  events : List SDKMessage := []
  abortAt : Option Nat := none
  term : StreamTerm := StreamTerm.ok
  assignedSessionId : Option String := none
  addFails : Bool := false
  todoUpdateFails : Bool := false
deriving Repr

/-- Association-list update (the `Map.set` of the class maps). -/
def setA {α : Type} : List (String × α) → String → α → List (String × α)
  | [], k, v => [(k, v)]
  | (k0, v0) :: t, k, v =>
    if k0 = k then (k, v) :: t else (k0, v0) :: setA t k v

def lookupA {α : Type} (l : List (String × α)) (k : String) : Option α :=
  (l.find? (fun p => p.1 = k)).map (fun p => p.2)

def delA {α : Type} : List (String × α) → String → List (String × α)
  | [], _ => []
  | (k0, v0) :: t, k => if k0 = k then t else (k0, v0) :: delA t k

def addKey (l : List String) (k : String) : List String :=
  if l.contains k then l else l ++ [k]

def removeKey (l : List String) (k : String) : List String :=
  l.filter (fun k0 => k0 ≠ k)

/-- The global keyed registries of the handler class. -/
structure Reg where
  activeControllers : List String := []
  originalMessages : List (String × String × String) := []
  currentReactions : List (String × String) := []
  todoMessages : List (String × Nat) := []
  sessions : List (String × Option String) := []
  sessionTodos : List (String × List Todo) := []
deriving Repr

/-- Modelled from the spec: `getSessionKey` of the missing
claude-handler.ts is a deterministic composite of user identity,
conversation identity and thread identity-or-root. -/
def getSessionKey (user channel tts : String) : String :=
  user ++ ":" ++ channel ++ ":" ++ tts

/-- Result of one `handleMessage` call: the updated registries and the
transmission trace (with its ghost pre-mask and status views). -/
structure HMResult where
  reg : Reg
  ops : List ChatOp
  composed : List String
  statuses : List (String × String)
deriving Repr

/-- Source `handleMessage` (lines 55-347).  The early command replies
return before any session state is touched; the main path registers the
turn, runs the stream (runTurn), and unregisters the controller in the
`finally` block (the delayed five-minute cleanup timer is a future
effect outside one call and is not part of the call's result). -/
def handleMessage (o : Oracles) (ev : Event) (reg : Reg) : HMResult :=
  let processedFiles := if ev.hasFiles then o.processedFiles else []
  let st0 : HSt := {}
  let st0 :=
    if 0 < processedFiles.length then
      (sendPost o.km
        ("📎 Processing " ++ toString processedFiles.length ++ " file(s): "
          ++ String.intercalate ", " processedFiles) st0).1
    else st0
  if textFalsy ev.text ∧ processedFiles.length = 0 then
    { reg := reg, ops := st0.ops, composed := st0.composed, statuses := st0.statuses }
  else
    let isDM := ev.channel.startsWith "D"
    let context :=
      if !textFalsy ev.thread_ts then "this thread"
      else if isDM then "this conversation" else "this channel"
    let setDirPath := if textFalsy ev.text then none else o.parseSetResult
    match setDirPath with
    | some _ =>
      let reply :=
        if o.setDirSuccess then
          "✅ Working directory set for " ++ context ++ ": `" ++ o.setDirResolvedPath ++ "`"
        else "❌ " ++ o.setDirError
      let st1 := (sendPost o.km reply st0).1
      { reg := reg, ops := st1.ops, composed := st1.composed, statuses := st1.statuses }
    | none =>
      if !textFalsy ev.text ∧ o.isGetCmd then
        let st1 := (sendPost o.km o.dirMessage st0).1
        { reg := reg, ops := st1.ops, composed := st1.composed, statuses := st1.statuses }
      else if !textFalsy ev.text ∧ o.isMcpInfo then
        let st1 := (sendPost o.km o.mcpInfo st0).1
        { reg := reg, ops := st1.ops, composed := st1.composed, statuses := st1.statuses }
      else if !textFalsy ev.text ∧ o.isMcpReload then
        let reply :=
          if o.mcpReloadOk then
            "✅ MCP configuration reloaded successfully.\n\n" ++ o.mcpInfo
          else "❌ Failed to reload MCP configuration. Check the mcp-servers.json file."
        let st1 := (sendPost o.km reply st0).1
        { reg := reg, ops := st1.ops, composed := st1.composed, statuses := st1.statuses }
      else
        let tts := threadOr ev.thread_ts ev.ts
        let sessionKey := getSessionKey ev.user ev.channel tts
        let reg1 := { reg with
          originalMessages := setA reg.originalMessages sessionKey (ev.channel, tts) }
        let reg2 := { reg1 with
          activeControllers := addKey reg1.activeControllers sessionKey }
        let prevSession := lookupA reg2.sessions sessionKey
        let sessionId :=
          match prevSession with
          | some (some id) => some id
          | _ => o.assignedSessionId
        let reg3 := { reg2 with sessions := setA reg2.sessions sessionKey sessionId }
        let stT := { st0 with
          origMsgPresent := true,
          currentReaction := lookupA reg3.currentReactions sessionKey,
          todos := (match sessionId with
            | some id => (lookupA reg3.sessionTodos id).getD []
            | none => []),
          todoMessageTs := lookupA reg3.todoMessages sessionKey }
        let cfg : Cfg := { km := o.km, addFails := o.addFails,
                           todoUpdateFails := o.todoUpdateFails, sessionId := sessionId }
        let stF := runTurn cfg o.events o.abortAt o.term stT
        let reg4 := { reg3 with
          activeControllers := removeKey reg3.activeControllers sessionKey,
          currentReactions :=
            (match stF.currentReaction with
             | some e => setA reg3.currentReactions sessionKey e
             | none => reg3.currentReactions),
          todoMessages :=
            (match stF.todoMessageTs with
             | some ts => setA reg3.todoMessages sessionKey ts
             | none => reg3.todoMessages),
          sessionTodos :=
            (match sessionId with
             | some id => setA reg3.sessionTodos id stF.todos
             | none => reg3.sessionTodos) }
        { reg := reg4, ops := stF.ops, composed := stF.composed, statuses := stF.statuses }

/-- Source `handleChannelJoin` (lines 620-652): compose the welcome
message (whose body depends on whether a base directory is configured)
and send it through `maskedSay`. -/
def handleChannelJoin (km : List String) (channelName : Option String)
    (baseDirectory : Option String) (st : HSt) : HSt :=
  let name := match channelName with
    | some s => if s = "" then "this channel" else s
    | none => "this channel"
  let w1 := "👋 Hi! I\x27m Claude Code, your AI coding assistant.\n\n"
    ++ "To get started, I need to know the default working directory for #"
    ++ name ++ ".\n\n"
  let w2 := match baseDirectory with
    | some base =>
      if base = "" then
        w1 ++ "Please set it using:\n"
          ++ "• `cwd /path/to/project` or `set directory /path/to/project`\n\n"
      else
        w1 ++ "You can use:\n"
          ++ "• `cwd project-name` (relative to base directory: `" ++ base ++ "`)\n"
          ++ "• `cwd /absolute/path/to/project` (absolute path)\n\n"
    | none =>
      w1 ++ "Please set it using:\n"
        ++ "• `cwd /path/to/project` or `set directory /path/to/project`\n\n"
  let w := w2 ++ "This will be the default working directory for this channel. "
    ++ "You can always override it for specific threads by mentioning me with a different `cwd` command.\n\n"
    ++ "Once set, you can ask me to help with code reviews, file analysis, debugging, and more!"
  (sendPost km w st).1

/-! ## Claim-side definitions

These definitions restate parts of the specification in the spec's own
words, for comparison with the source-derived definitions above. -/

/-- The texts actually transmitted to the chat surface: the text of
every post and update operation, in order (reactions carry no text). -/
def sentTexts (ops : List ChatOp) : List String :=
  ops.filterMap (fun op =>
    match op with
    | .post _ t => some t
    | .update _ t => some t
    | .reactAdd _ => none
    | .reactRemove _ => none)

/-- The invariant of the redaction boundary: every transmitted text is
exactly `maskText` of the corresponding composed text. -/
def SentMasked (km : List String) (st : HSt) : Prop :=
  sentTexts st.ops = st.composed.map (maskText km)

/-- Substring containment on strings (JS `hay.includes(needle)`). -/
def strContains (hay needle : String) : Bool :=
  containsSub hay.data needle.data

/-- The spec's rendering rule, stated in its words: the header
"emoji *statusText*" alone when no parts, else the header followed by
all parts joined with the visible separator. -/
def renderSpec (statusEmoji statusText : String) (parts : List String) : String :=
  if parts.isEmpty then statusEmoji ++ " *" ++ statusText ++ "*"
  else statusEmoji ++ " *" ++ statusText ++ "*" ++ "\n\n"
    ++ String.intercalate "\n\n---\n\n" parts

/-- No SECRET_PATTERNS match of `p` starts at any position of the
list. -/
def patFreeOne (p : SecretPattern) : List Char → Bool
  | [] => true
  | c :: rest => (matchAtHead p c rest).isNone && patFreeOne p rest

/-- No pattern of SECRET_PATTERNS matches anywhere in the list. -/
def patFree (l : List Char) : Bool :=
  SECRET_PATTERNS.all (fun p => patFreeOne p l)

/-- None of the known secret values occurs in the string. -/
def secretFree (km : List String) (s : String) : Bool :=
  km.all (fun v => !containsSub s.data v.data)

/-- A concrete renderer state for exercising the overflow split: an
active message and two buffered parts whose rendered text exceeds the
ceiling. -/
def overflowWitnessSt : HSt :=
  { responseMessageTs := some 7,
    contentParts := [String.mk (List.replicate 39100 'a'), "tail"] }

/-! ## Theorems -/

theorem intercalate_go_append (s x : String) :
    ∀ (t : List String) (y : String),
      String.intercalate.go (x ++ y) s t = x ++ String.intercalate.go y s t := by
  intro t
  induction t with
  | nil => intro y; rfl
  | cons c cs ih =>
    intro y
    show String.intercalate.go (x ++ y ++ s ++ c) s cs
      = x ++ String.intercalate.go (y ++ s ++ c) s cs
    have h : x ++ y ++ s ++ c = x ++ (y ++ s ++ c) := by
      simp [String.append_assoc]
    rw [h, ih (y ++ s ++ c)]

theorem joinSep_eq_intercalate (s : String) :
    ∀ l : List String, joinSep s l = String.intercalate s l := by
  intro l
  match l with
  | [] => rfl
  | [a] => rfl
  | a :: b :: t =>
    show a ++ s ++ joinSep s (b :: t) = String.intercalate.go a s (b :: t)
    have h1 : String.intercalate.go a s (b :: t)
        = String.intercalate.go (a ++ s ++ b) s t := rfl
    have h2 : a ++ s ++ b = (a ++ s) ++ b := rfl
    rw [h1, h2, intercalate_go_append s (a ++ s) t b]
    have h3 : String.intercalate.go b s t = String.intercalate s (b :: t) := rfl
    rw [h3, ← joinSep_eq_intercalate s (b :: t), String.append_assoc]

/-- C6: for every status emoji, status text and ordered part sequence,
the rendered message text is the header "emoji *statusText*" alone when
the part sequence is empty, and otherwise the header followed by all
parts in order joined with the separator, exactly as the spec's
`render` describes. -/
theorem buildResponseText_eq_renderSpec (statusEmoji statusText : String)
    (parts : List String) :
    buildResponseText parts statusEmoji statusText
      = renderSpec statusEmoji statusText parts := by
  unfold buildResponseText renderSpec
  cases parts with
  | nil => rfl
  | cons a t =>
    simp only [List.length_cons, List.isEmpty_cons]
    rw [if_neg (by simp), if_neg (by simp), joinSep_eq_intercalate]

/-- C7 counterexample: invoking publish (`updateResponse`) while no
outbound message has been posted yet leaves the state entirely
unchanged — no message is posted and no identity is recorded, contrary
to the claim that it posts one. -/
theorem updateResponse_noMessage_counterexample :
    updateResponse [] "⚙️" "Working..."
        ({ responseMessageTs := none, contentParts := ["x"], nextTs := 5 } : HSt)
      = ({ responseMessageTs := none, contentParts := ["x"], nextTs := 5 } : HSt) := rfl

/-- C7 amended: when publish is invoked before any outbound message has
been posted for the turn, it returns without any effect; the initial
status message is posted directly at turn start, not by publish. -/
theorem updateResponse_noMessage (km : List String) (statusEmoji statusText : String)
    (st : HSt) (h : st.responseMessageTs = none) :
    updateResponse km statusEmoji statusText st = st := by
  unfold updateResponse
  rw [h]

theorem updateResponse_noMessage_witness :
    (({ contentParts := ["x"] } : HSt).responseMessageTs = none)
      ∧ updateResponse [] "✅" "Done" ({ contentParts := ["x"] } : HSt)
          = ({ contentParts := ["x"] } : HSt) :=
  ⟨rfl, updateResponse_noMessage [] "✅" "Done" { contentParts := ["x"] } rfl⟩

/-- C9: requesting the status marker already recorded as currently
applied for the key is a complete no-op: no transport call is appended
to the trace and the whole state (including the recorded reaction) is
unchanged. -/
theorem updateMessageReaction_same_noop (emoji : String) (addFails : Bool)
    (st : HSt) (h : st.currentReaction = some emoji) :
    updateMessageReaction emoji addFails st = st := by
  unfold updateMessageReaction
  rw [h]
  cases st.origMsgPresent <;> simp

theorem updateMessageReaction_same_noop_witness :
    (({ currentReaction := some "✅" } : HSt).currentReaction = some "✅")
      ∧ updateMessageReaction "✅" false ({ currentReaction := some "✅" } : HSt)
          = ({ currentReaction := some "✅" } : HSt) :=
  ⟨rfl, updateMessageReaction_same_noop "✅" false { currentReaction := some "✅" } rfl⟩

theorem filter_length_pos_iff_any {α : Type} (p : α → Bool) (l : List α) :
    0 < (l.filter p).length ↔ l.any p := by
  induction l with
  | nil => simp
  | cons a t ih =>
    by_cases h : p a <;> simp [List.filter_cons, h, ih]

/-- C8 counterexample: for the empty todo list — reachable on a
significant change, since dropping all items changes the count — every
item is (vacuously) completed, yet the source applies no marker at all
instead of the "done" marker the claim requires. -/
theorem aggMarker_empty_counterexample :
    ([] : List Todo).all (fun t => t.status = TodoStatus.completed)
      ∧ aggMarker ([] : List Todo) = none := by
  constructor
  · decide
  · rfl

/-- C8 amended: for every non-empty todo list the recomputed aggregate
marker is the done marker when all items are completed, the progress
marker when at least one is in progress (and not all completed), and the
pending marker otherwise; for an empty list no marker is recomputed. -/
theorem aggMarker_nonempty (todos : List Todo) (h : todos ≠ []) :
    aggMarker todos
      = some (if todos.all (fun t => t.status = TodoStatus.completed) then "✅"
              else if todos.any (fun t => t.status = TodoStatus.in_progress) then "🔄"
              else "📋") := by
  unfold aggMarker
  rw [if_neg (by simpa [List.length_eq_zero] using h)]
  by_cases hall : ∀ t ∈ todos, t.status = TodoStatus.completed
  · rw [if_pos (List.filter_length_eq_length.mpr (by simpa using hall))]
    simp only [List.all_eq_true]
    rw [if_pos (by simpa using hall)]
  · have hne : (todos.filter (fun t => t.status = TodoStatus.completed)).length
        ≠ todos.length := by
      intro hc
      exact hall (by simpa using List.filter_length_eq_length.mp hc)
    rw [if_neg hne]
    have hiff := filter_length_pos_iff_any
      (fun t => decide (t.status = TodoStatus.in_progress)) todos
    by_cases hany : todos.any (fun t => t.status = TodoStatus.in_progress)
    · rw [if_pos (hiff.mpr hany)]
      simp only [List.all_eq_true]
      rw [if_neg (by simpa using hall), if_pos hany]
    · rw [if_neg (by simpa using fun hpos => hany (hiff.mp hpos))]
      simp only [List.all_eq_true]
      rw [if_neg (by simpa using hall), if_neg hany]

theorem aggMarker_nonempty_witness :
    (([⟨"a", TodoStatus.in_progress⟩, ⟨"b", TodoStatus.pending⟩] : List Todo) ≠ [])
      ∧ aggMarker ([⟨"a", TodoStatus.in_progress⟩, ⟨"b", TodoStatus.pending⟩] : List Todo)
          = some (if ([⟨"a", TodoStatus.in_progress⟩, ⟨"b", TodoStatus.pending⟩]
                      : List Todo).all (fun t => t.status = TodoStatus.completed) then "✅"
                  else if ([⟨"a", TodoStatus.in_progress⟩, ⟨"b", TodoStatus.pending⟩]
                      : List Todo).any (fun t => t.status = TodoStatus.in_progress) then "🔄"
                  else "📋") :=
  ⟨by decide,
   aggMarker_nonempty [⟨"a", TodoStatus.in_progress⟩, ⟨"b", TodoStatus.pending⟩] (by decide)⟩

/-- C3 counterexample: the successful result text "hello" is contained
(as a substring) in the previously streamed prose "hello world", yet the
handler appends it as a final content part — newness is not decided by
containment in earlier prose. -/
theorem resultAppend_counterexample :
    strContains "hello world" "hello" = true
      ∧ (stepEvent {} (SDKMessage.result "success" (some "hello"))
           ({ currentMessages := ["hello world"] } : HSt)).contentParts = ["hello"] := by
  constructor
  · decide
  · decide

/-- C3 amended: for a successful terminal result event carrying result
text r, r is appended (formatted) as a final content part exactly when r
is non-empty and not equal (as a whole string) to any prose text
previously emitted during streaming; otherwise the state is unchanged. -/
theorem stepEvent_result_success (cfg : Cfg) (r : String) (st : HSt) :
    stepEvent cfg (SDKMessage.result "success" (some r)) st
      = if r ≠ "" ∧ ¬ st.currentMessages.contains r
        then { st with contentParts := st.contentParts ++ [formatMessage r true] }
        else st := by
  simp [stepEvent]

theorem resultAppend_iff (cfg : Cfg) (r : String) (st : HSt) :
    ((stepEvent cfg (SDKMessage.result "success" (some r)) st).contentParts
        = st.contentParts ++ [formatMessage r true]
      ↔ (r ≠ "" ∧ st.currentMessages.contains r = false))
    ∧ ((r = "" ∨ st.currentMessages.contains r = true)
        → stepEvent cfg (SDKMessage.result "success" (some r)) st = st) := by
  rw [stepEvent_result_success]
  by_cases hc : r ≠ "" ∧ ¬ st.currentMessages.contains r
  · rw [if_pos hc]
    constructor
    · exact ⟨fun _ => ⟨hc.1, by simpa using hc.2⟩, fun _ => rfl⟩
    · intro habs
      exfalso
      rcases habs with h | h
      · exact hc.1 h
      · exact hc.2 h
  · rw [if_neg hc]
    constructor
    · constructor
      · intro h
        exfalso
        have := congrArg List.length h
        simp at this
      · intro h
        exact absurd ⟨h.1, by rw [h.2]; simp⟩ hc
    · intro _
      rfl

theorem joinSep_pair (sep a b : String) : joinSep sep [a, b] = a ++ sep ++ b := rfl

theorem dropLast_append_getLastD {l : List String} (h : l ≠ []) :
    l.dropLast ++ [l.getLastD ""] = l := by
  rw [List.getLastD_eq_getLast?, List.getLast?_eq_getLast l h, Option.getD_some]
  exact List.dropLast_concat_getLast h

/-- C1: when the rendered text (status header plus all parts) exceeds
the 39000-unit ceiling and more than one part is buffered, publish
detaches exactly the last part, finalizes the current outbound message
with the remaining parts, posts a new message containing only the
detached part under the same status header, makes that new message the
target of subsequent updates, and the detached and remaining parts
together are exactly the original parts — none lost, none duplicated. -/
theorem updateResponse_overflow (km : List String) (statusEmoji statusText : String)
    (st : HSt) (ts : Nat)
    (h1 : st.responseMessageTs = some ts)
    (h2 : 1 < st.contentParts.length)
    (h3 : 39000 < (buildResponseText st.contentParts statusEmoji statusText).length) :
    updateResponse km statusEmoji statusText st
      = { st with
          nextTs := st.nextTs + 1,
          ops := st.ops
            ++ [ChatOp.update ts (maskText km
                  (buildResponseText st.contentParts.dropLast statusEmoji statusText)),
                ChatOp.post st.nextTs (maskText km
                  (buildResponseText [st.contentParts.getLastD ""] statusEmoji statusText))],
          composed := st.composed
            ++ [buildResponseText st.contentParts.dropLast statusEmoji statusText,
                buildResponseText [st.contentParts.getLastD ""] statusEmoji statusText],
          statuses := st.statuses ++ [(statusEmoji, statusText)],
          contentParts := [st.contentParts.getLastD ""],
          responseMessageTs := some st.nextTs }
      ∧ st.contentParts.dropLast ++ [st.contentParts.getLastD ""] = st.contentParts := by
  constructor
  · simp only [updateResponse, h1]
    rw [if_pos (And.intro (by simpa [SLACK_MAX_LENGTH] using h3) h2)]
    simp [sendUpdate, sendPost]
  · exact dropLast_append_getLastD (by intro hc; rw [hc] at h2; simp at h2)

theorem updateResponse_overflow_witness :
    (overflowWitnessSt.responseMessageTs = some 7)
    ∧ (1 < overflowWitnessSt.contentParts.length)
    ∧ (39000 < (buildResponseText overflowWitnessSt.contentParts "⚙️" "Working...").length)
    ∧ (updateResponse [] "⚙️" "Working..." overflowWitnessSt
        = { overflowWitnessSt with
            nextTs := overflowWitnessSt.nextTs + 1,
            ops := overflowWitnessSt.ops
              ++ [ChatOp.update 7 (maskText []
                    (buildResponseText overflowWitnessSt.contentParts.dropLast "⚙️" "Working...")),
                  ChatOp.post overflowWitnessSt.nextTs (maskText []
                    (buildResponseText [overflowWitnessSt.contentParts.getLastD ""]
                      "⚙️" "Working..."))],
            composed := overflowWitnessSt.composed
              ++ [buildResponseText overflowWitnessSt.contentParts.dropLast "⚙️" "Working...",
                  buildResponseText [overflowWitnessSt.contentParts.getLastD ""] "⚙️" "Working..."],
            statuses := overflowWitnessSt.statuses ++ [("⚙️", "Working...")],
            contentParts := [overflowWitnessSt.contentParts.getLastD ""],
            responseMessageTs := some overflowWitnessSt.nextTs }
       ∧ overflowWitnessSt.contentParts.dropLast ++ [overflowWitnessSt.contentParts.getLastD ""]
           = overflowWitnessSt.contentParts) := by
  have hlen : 39000 < (buildResponseText overflowWitnessSt.contentParts "⚙️" "Working...").length := by
    show 39000 < (buildResponseText [String.mk (List.replicate 39100 'a'), "tail"]
      "⚙️" "Working...").length
    have hb : buildResponseText [String.mk (List.replicate 39100 'a'), "tail"] "⚙️" "Working..."
        = "⚙️" ++ " *" ++ "Working..." ++ "*" ++ "\n\n"
          ++ (String.mk (List.replicate 39100 'a') ++ "\n\n---\n\n" ++ "tail") := by
      unfold buildResponseText
      rw [if_neg (by simp), joinSep_pair]
    rw [hb]
    have hmk : (String.mk (List.replicate 39100 'a')).length = 39100 := by
      show (List.replicate 39100 'a').length = 39100
      rw [List.length_replicate]
    rw [String.length_append, String.length_append, String.length_append,
      String.length_append, String.length_append, String.length_append,
      String.length_append, hmk]
    omega
  exact ⟨rfl, by decide, hlen,
    updateResponse_overflow [] "⚙️" "Working..." overflowWitnessSt 7 rfl (by decide) hlen⟩

/-- C10: an inbound event carrying neither text nor any processable
attachment makes handleMessage return without posting any chat-surface
message and with every registry (controllers, sessions, reactions,
todos, message identities) unchanged. -/
theorem handleMessage_empty_noop (o : Oracles) (ev : Event) (reg : Reg)
    (h1 : textFalsy ev.text = true)
    (h2 : (if ev.hasFiles then o.processedFiles else []) = []) :
    (handleMessage o ev reg).reg = reg
    ∧ (handleMessage o ev reg).ops = []
    ∧ (handleMessage o ev reg).composed = []
    ∧ (handleMessage o ev reg).statuses = [] := by
  unfold handleMessage
  rw [h2]
  simp [h1]

theorem handleMessage_empty_noop_witness :
    (textFalsy ({ text := none } : Event).text = true)
    ∧ ((if ({ text := none } : Event).hasFiles
          then ({} : Oracles).processedFiles else []) = [])
    ∧ ((handleMessage {} ({ text := none } : Event) ({} : Reg)).reg = ({} : Reg)
       ∧ (handleMessage {} ({ text := none } : Event) ({} : Reg)).ops = []
       ∧ (handleMessage {} ({ text := none } : Event) ({} : Reg)).composed = []
       ∧ (handleMessage {} ({ text := none } : Event) ({} : Reg)).statuses = []) :=
  ⟨rfl, rfl, handleMessage_empty_noop {} { text := none } {} rfl rfl⟩

/-- C5 counterexample: maskText is not idempotent.  In
"Bearer Basic AAAAAAAAAAAAAAAAAAAA.kkkkkkkkk" the first application
masks the Basic-auth credential to "Basi...AAAA", whose dots belong to
the Bearer pattern's character class; the second application therefore
finds a fresh Bearer match and masks further, so applying maskText twice
differs from applying it once (known-secret set: empty). -/
theorem maskText_not_idempotent_counterexample :
    maskText [] (maskText [] "Bearer Basic AAAAAAAAAAAAAAAAAAAA.kkkkkkkkk")
      ≠ maskText [] "Bearer Basic AAAAAAAAAAAAAAAAAAAA.kkkkkkkkk" := by
  decide

theorem scanPatGo_of_patFreeOne (p : SecretPattern) :
    ∀ (fuel : Nat) (l : List Char), patFreeOne p l = true → scanPatGo p fuel l = l := by
  intro fuel
  induction fuel with
  | zero => intro l _; rfl
  | succ n ih =>
    intro l h
    cases l with
    | nil => rfl
    | cons c rest =>
      have h' := h
      unfold patFreeOne at h'
      rw [Bool.and_eq_true] at h'
      unfold scanPatGo
      cases hm : matchAtHead p c rest with
      | some v =>
        rw [hm] at h'
        simp at h'
      | none =>
        rw [ih rest h'.2]

theorem scanPat_of_patFreeOne (p : SecretPattern) (l : List Char)
    (h : patFreeOne p l = true) : scanPat p l = l :=
  scanPatGo_of_patFreeOne p l.length l h

theorem string_mk_data (s : String) : String.mk s.data = s := by
  cases s
  rfl

theorem foldl_scan_of_patFree (s : String) :
    ∀ ps : List SecretPattern, (∀ p ∈ ps, patFreeOne p s.data = true) →
      ps.foldl (fun acc p => String.mk (scanPat p acc.data)) s = s := by
  intro ps
  induction ps with
  | nil => intro _; rfl
  | cons p t ih =>
    intro h
    show t.foldl _ (String.mk (scanPat p s.data)) = s
    rw [scanPat_of_patFreeOne p s.data (h p (by simp)), string_mk_data]
    exact ih (fun q hq => h q (by simp [hq]))

theorem foldl_secrets_of_secretFree (s : String) :
    ∀ km : List String, secretFree km s = true →
      km.foldl
        (fun acc v =>
          if containsSub acc.data v.data then
            String.mk (replAll v.data (maskValue v).data acc.data)
          else acc) s = s := by
  intro km
  induction km with
  | nil => intro _; rfl
  | cons v t ih =>
    intro h
    unfold secretFree at h
    rw [List.all_cons, Bool.and_eq_true] at h
    show t.foldl _ (if containsSub s.data v.data then _ else s) = s
    rw [if_neg (by simpa using h.1)]
    exact ih (by unfold secretFree; exact h.2)

theorem maskText_id (km : List String) (s : String)
    (h1 : secretFree km s = true) (h2 : patFree s.data = true) :
    maskText km s = s := by
  unfold maskText
  by_cases hs : s = ""
  · rw [if_pos hs]
  · rw [if_neg hs]
    rw [foldl_secrets_of_secretFree s km h1]
    exact foldl_scan_of_patFree s SECRET_PATTERNS
      (fun p hp => by
        unfold patFree at h2
        exact List.all_eq_true.mp h2 p hp)

/-- C5 amended: maskText is idempotent on every input whose masked form
is free of known secret values and of pattern matches — a second
application then changes nothing; full idempotence fails because a
replacement can abut surrounding characters and create a fresh pattern
match (see the counterexample). -/
theorem maskText_idempotent_of_maskedFree (km : List String) (s : String)
    (h1 : secretFree km (maskText km s) = true)
    (h2 : patFree (maskText km s).data = true) :
    maskText km (maskText km s) = maskText km s :=
  maskText_id km (maskText km s) h1 h2

theorem maskText_idempotent_of_maskedFree_witness :
    (secretFree ["hunter2secret"] (maskText ["hunter2secret"] "status: all good") = true)
    ∧ (patFree (maskText ["hunter2secret"] "status: all good").data = true)
    ∧ maskText ["hunter2secret"] (maskText ["hunter2secret"] "status: all good")
        = maskText ["hunter2secret"] "status: all good" :=
  ⟨by decide, by decide,
   maskText_idempotent_of_maskedFree ["hunter2secret"] "status: all good"
     (by decide) (by decide)⟩

theorem sendPost_statuses (km : List String) (t : String) (st : HSt) :
    (sendPost km t st).1.statuses = st.statuses := rfl

theorem sendPost_rts (km : List String) (t : String) (st : HSt) :
    (sendPost km t st).1.responseMessageTs = st.responseMessageTs := rfl

theorem sendUpdate_statuses (km : List String) (ts : Nat) (t : String) (st : HSt) :
    (sendUpdate km ts t st).statuses = st.statuses := rfl

theorem sendUpdate_rts (km : List String) (ts : Nat) (t : String) (st : HSt) :
    (sendUpdate km ts t st).responseMessageTs = st.responseMessageTs := rfl

theorem updateMessageReaction_statuses (e : String) (f : Bool) (st : HSt) :
    (updateMessageReaction e f st).statuses = st.statuses := by
  unfold updateMessageReaction
  split_ifs <;> simp

theorem updateMessageReaction_rts (e : String) (f : Bool) (st : HSt) :
    (updateMessageReaction e f st).responseMessageTs = st.responseMessageTs := by
  unfold updateMessageReaction
  split_ifs <;> simp

theorem createNewTodoMessage_statuses (km : List String) (tl : String) (st : HSt) :
    (createNewTodoMessage km tl st).statuses = st.statuses := rfl

theorem createNewTodoMessage_rts (km : List String) (tl : String) (st : HSt) :
    (createNewTodoMessage km tl st).responseMessageTs = st.responseMessageTs := rfl

theorem updateTaskProgressReaction_statuses (f : Bool) (todos : List Todo) (st : HSt) :
    (updateTaskProgressReaction f todos st).statuses = st.statuses := by
  unfold updateTaskProgressReaction
  cases aggMarker todos with
  | none => rfl
  | some e => exact updateMessageReaction_statuses e f st

theorem updateTaskProgressReaction_rts (f : Bool) (todos : List Todo) (st : HSt) :
    (updateTaskProgressReaction f todos st).responseMessageTs = st.responseMessageTs := by
  unfold updateTaskProgressReaction
  cases aggMarker todos with
  | none => rfl
  | some e => exact updateMessageReaction_rts e f st

theorem handleTodoUpdate_statuses (km : List String) (f1 f2 : Bool) (input : ToolInput)
    (sid : Option String) (st : HSt) :
    (handleTodoUpdate km f1 f2 input sid st).statuses = st.statuses := by
  unfold handleTodoUpdate
  cases sid with
  | none => rfl
  | some s =>
    cases input.todos with
    | none => rfl
    | some newTodos =>
      simp only
      split
      · rw [updateTaskProgressReaction_statuses]
        repeat' split
        all_goals simp [createNewTodoMessage, sendPost, sendUpdate]
      · rfl

theorem handleTodoUpdate_rts (km : List String) (f1 f2 : Bool) (input : ToolInput)
    (sid : Option String) (st : HSt) :
    (handleTodoUpdate km f1 f2 input sid st).responseMessageTs = st.responseMessageTs := by
  unfold handleTodoUpdate
  cases sid with
  | none => rfl
  | some s =>
    cases input.todos with
    | none => rfl
    | some newTodos =>
      simp only
      split
      · rw [updateTaskProgressReaction_rts]
        repeat' split
        all_goals simp [createNewTodoMessage, sendPost, sendUpdate]
      · rfl

theorem updateResponse_statuses_some (km : List String) (e t : String) (st : HSt)
    (h : st.responseMessageTs.isSome = true) :
    (updateResponse km e t st).statuses = st.statuses ++ [(e, t)]
    ∧ (updateResponse km e t st).responseMessageTs.isSome = true := by
  obtain ⟨ts, hts⟩ := Option.isSome_iff_exists.mp h
  simp only [updateResponse, hts]
  split_ifs <;> simp [sendUpdate, sendPost, h]

theorem stepEvent_statuses (cfg : Cfg) (m : SDKMessage) (st : HSt)
    (h : st.responseMessageTs.isSome = true) :
    ((stepEvent cfg m st).responseMessageTs.isSome = true)
    ∧ ∃ k, (stepEvent cfg m st).statuses
        = st.statuses ++ List.replicate k ("⚙️", "Working...") := by
  cases m with
  | result subtype result =>
    simp only [stepEvent]
    by_cases hsub : subtype = "success"
    · rw [if_pos hsub]
      cases result with
      | none => exact ⟨h, 0, by simp⟩
      | some r =>
        dsimp only
        by_cases hc : r ≠ "" ∧ ¬ st.currentMessages.contains r = true
        · rw [if_pos hc]
          exact ⟨h, 0, by simp⟩
        · rw [if_neg hc]
          exact ⟨h, 0, by simp⟩
    · rw [if_neg hsub]
      exact ⟨h, 0, by simp⟩
  | assistant content =>
    simp only [stepEvent]
    by_cases htool : content.any isToolUseBlock = true
    · rw [if_pos htool]
      set st1 := updateMessageReaction "⚙️" cfg.addFails st with hst1
      have h1rts : st1.responseMessageTs = st.responseMessageTs :=
        updateMessageReaction_rts _ _ _
      have h1stat : st1.statuses = st.statuses :=
        updateMessageReaction_statuses _ _ _
      set st2 := (match content.find? isTodoWriteBlock with
        | some (.toolUse _ input) =>
          handleTodoUpdate cfg.km cfg.todoUpdateFails cfg.addFails input cfg.sessionId st1
        | _ => st1) with hst2
      have h2rts : st2.responseMessageTs = st.responseMessageTs := by
        rw [hst2]
        cases hf : content.find? isTodoWriteBlock with
        | none => simpa using h1rts
        | some b =>
          cases b with
          | text s => simpa using h1rts
          | toolUse n input => simpa [handleTodoUpdate_rts] using h1rts
      have h2stat : st2.statuses = st.statuses := by
        rw [hst2]
        cases hf : content.find? isTodoWriteBlock with
        | none => simpa using h1stat
        | some b =>
          cases b with
          | text s => simpa using h1stat
          | toolUse n input => simpa [handleTodoUpdate_statuses] using h1stat
      by_cases hc : formatToolUse content ≠ ""
      · rw [if_pos hc]
        have hsome : ({ st2 with contentParts := st2.contentParts ++ [formatToolUse content]
            } : HSt).responseMessageTs.isSome = true := by
          simpa [h2rts] using h
        obtain ⟨hstat, hrts⟩ := updateResponse_statuses_some cfg.km "⚙️" "Working..." _ hsome
        refine ⟨hrts, 1, ?_⟩
        rw [hstat]
        simp [h2stat]
      · rw [if_neg hc]
        exact ⟨by simpa [h2rts] using h, 0, by simpa using h2stat⟩
    · rw [if_neg htool]
      by_cases hc : extractTextContent content ≠ ""
      · rw [if_pos hc]
        have hsome : ({ { st with currentMessages := st.currentMessages
              ++ [extractTextContent content] } with
            contentParts := st.contentParts
              ++ [formatMessage (extractTextContent content) false] } : HSt).responseMessageTs.isSome
            = true := by simpa using h
        obtain ⟨hstat, hrts⟩ := updateResponse_statuses_some cfg.km "⚙️" "Working..." _ hsome
        refine ⟨hrts, 1, ?_⟩
        rw [hstat]
        simp
      · rw [if_neg hc]
        exact ⟨h, 0, by simp⟩

theorem runLoop_statuses (cfg : Cfg) :
    ∀ (events : List SDKMessage) (st : HSt), st.responseMessageTs.isSome = true →
      ((runLoop cfg events st).responseMessageTs.isSome = true)
      ∧ ∃ k, (runLoop cfg events st).statuses
          = st.statuses ++ List.replicate k ("⚙️", "Working...") := by
  intro events
  induction events with
  | nil => intro st h; exact ⟨h, 0, by simp [runLoop]⟩
  | cons m t ih =>
    intro st h
    obtain ⟨h1, k1, hk1⟩ := stepEvent_statuses cfg m st h
    obtain ⟨h2, k2, hk2⟩ := ih (stepEvent cfg m st) h1
    refine ⟨h2, k1 + k2, ?_⟩
    show (runLoop cfg t (stepEvent cfg m st)).statuses = _
    rw [hk2, hk1, List.append_assoc, ← List.replicate_add]

theorem runTurn_take (cfg : Cfg) (l : List SDKMessage) (a : Nat)
    (term : StreamTerm) (st0 : HSt) :
    runTurn cfg l (some a) term st0 = runTurn cfg (l.take a) (some a) term st0 := by
  simp only [runTurn]
  have hcut : min a (l.take a).length = min a l.length := by
    rw [List.length_take, ← Nat.min_assoc, Nat.min_self]
  have htake : (l.take a).take (min a (l.take a).length) = l.take (min a l.length) := by
    rw [hcut, List.take_take]
    congr 1
    omega
  have habort : decide (a ≤ (l.take a).length) = decide (a ≤ l.length) := by
    rw [decide_eq_decide, List.length_take]
    omega
  rw [htake, habort]

theorem runTurn_aborted_statuses (cfg : Cfg) (l : List SDKMessage) (a : Nat)
    (term : StreamTerm) (st0 : HSt) (h : a ≤ l.length) :
    ∃ k, (runTurn cfg l (some a) term st0).statuses
      = st0.statuses ++ [("🤔", "Thinking...")]
        ++ List.replicate k ("⚙️", "Working...") ++ [("⏹️", "Cancelled")] := by
  simp only [runTurn]
  rw [if_pos (by simpa using h)]
  set stP := sendPost cfg.km "🤔 *Thinking...*" st0 with hstP
  set st1 := ({ stP.1 with
      responseMessageTs := some stP.2,
      statuses := stP.1.statuses ++ [("🤔", "Thinking...")] } : HSt) with hst1
  have h1stat : st1.statuses = st0.statuses ++ [("🤔", "Thinking...")] := by
    rw [hst1, hstP]
    simp [sendPost]
  have h1some : st1.responseMessageTs.isSome = true := by
    rw [hst1]
    rfl
  set st2 := updateMessageReaction "🤔" cfg.addFails st1 with hst2
  have h2stat : st2.statuses = st0.statuses ++ [("🤔", "Thinking...")] := by
    rw [hst2, updateMessageReaction_statuses, h1stat]
  have h2some : st2.responseMessageTs.isSome = true := by
    rw [hst2, updateMessageReaction_rts]
    exact h1some
  obtain ⟨h3some, k, h3stat⟩ :=
    runLoop_statuses cfg (l.take (min a l.length)) st2 h2some
  obtain ⟨h4stat, _⟩ :=
    updateResponse_statuses_some cfg.km "⏹️" "Cancelled"
      (runLoop cfg (l.take (min a l.length)) st2) h3some
  refine ⟨k, ?_⟩
  rw [updateMessageReaction_statuses, h4stat, h3stat, h2stat]

/-- C2: for every turn whose cancellation token is signalled while the
backend stream is being consumed (after `a` of the events, `a` within
the stream), the turn's outcome is exactly that of the truncated stream
— later events have no effect on chat-surface state — and the turn's
status-header history is the initial Thinking header, some number of
Working updates, and then the Cancelled finalization exactly once; the
Done and Error headers are never published. -/
theorem runTurn_cancelled (cfg : Cfg) (l : List SDKMessage) (a : Nat)
    (term : StreamTerm) (st0 : HSt)
    (h1 : a ≤ l.length) (h0 : st0.statuses = []) :
    runTurn cfg l (some a) term st0 = runTurn cfg (l.take a) (some a) term st0
    ∧ (∃ k, (runTurn cfg l (some a) term st0).statuses
        = ("🤔", "Thinking...")
            :: (List.replicate k ("⚙️", "Working...") ++ [("⏹️", "Cancelled")]))
    ∧ (runTurn cfg l (some a) term st0).statuses.count ("⏹️", "Cancelled") = 1
    ∧ (runTurn cfg l (some a) term st0).statuses.count ("✅", "Done") = 0
    ∧ (runTurn cfg l (some a) term st0).statuses.count ("❌", "Error occurred") = 0 := by
  obtain ⟨k, hk⟩ := runTurn_aborted_statuses cfg l a term st0 h1
  rw [h0] at hk
  simp only [List.nil_append] at hk
  have hshape : (runTurn cfg l (some a) term st0).statuses
      = ("🤔", "Thinking...")
          :: (List.replicate k ("⚙️", "Working...") ++ [("⏹️", "Cancelled")]) := by
    rw [hk]
    simp
  refine ⟨runTurn_take cfg l a term st0, ⟨k, hshape⟩, ?_, ?_, ?_⟩ <;>
    rw [hshape] <;>
    simp +decide [List.count_cons, List.count_append, List.count_replicate]

theorem runTurn_cancelled_witness :
    (1 ≤ ([SDKMessage.assistant [ContentBlock.text "hi"],
           SDKMessage.assistant [ContentBlock.text "more"]] : List SDKMessage).length)
    ∧ (({} : HSt).statuses = [])
    ∧ (runTurn {} [SDKMessage.assistant [ContentBlock.text "hi"],
          SDKMessage.assistant [ContentBlock.text "more"]] (some 1) StreamTerm.ok {}
        = runTurn {} ([SDKMessage.assistant [ContentBlock.text "hi"],
            SDKMessage.assistant [ContentBlock.text "more"]].take 1) (some 1) StreamTerm.ok {}
       ∧ (∃ k, (runTurn {} [SDKMessage.assistant [ContentBlock.text "hi"],
            SDKMessage.assistant [ContentBlock.text "more"]] (some 1) StreamTerm.ok
            {}).statuses
          = ("🤔", "Thinking...")
              :: (List.replicate k ("⚙️", "Working...") ++ [("⏹️", "Cancelled")]))
       ∧ (runTurn {} [SDKMessage.assistant [ContentBlock.text "hi"],
            SDKMessage.assistant [ContentBlock.text "more"]] (some 1) StreamTerm.ok
            {}).statuses.count ("⏹️", "Cancelled") = 1
       ∧ (runTurn {} [SDKMessage.assistant [ContentBlock.text "hi"],
            SDKMessage.assistant [ContentBlock.text "more"]] (some 1) StreamTerm.ok
            {}).statuses.count ("✅", "Done") = 0
       ∧ (runTurn {} [SDKMessage.assistant [ContentBlock.text "hi"],
            SDKMessage.assistant [ContentBlock.text "more"]] (some 1) StreamTerm.ok
            {}).statuses.count ("❌", "Error occurred") = 0) :=
  ⟨by decide, rfl,
   runTurn_cancelled {} [SDKMessage.assistant [ContentBlock.text "hi"],
     SDKMessage.assistant [ContentBlock.text "more"]] 1 StreamTerm.ok {} (by decide) rfl⟩

theorem sentTexts_append (a b : List ChatOp) :
    sentTexts (a ++ b) = sentTexts a ++ sentTexts b := by
  unfold sentTexts
  rw [List.filterMap_append]

theorem sm_sendPost (km : List String) (t : String) (st : HSt)
    (h : SentMasked km st) : SentMasked km (sendPost km t st).1 := by
  unfold SentMasked sendPost at *
  simp only [sentTexts_append]
  rw [h]
  simp [sentTexts]

theorem sm_sendUpdate (km : List String) (ts : Nat) (t : String) (st : HSt)
    (h : SentMasked km st) : SentMasked km (sendUpdate km ts t st) := by
  unfold SentMasked sendUpdate at *
  simp only [sentTexts_append]
  rw [h]
  simp [sentTexts]

theorem sm_updateMessageReaction (km : List String) (e : String) (f : Bool) (st : HSt)
    (h : SentMasked km st) : SentMasked km (updateMessageReaction e f st) := by
  unfold updateMessageReaction
  split_ifs with h1 h2
  · exact h
  · exact h
  all_goals
    unfold SentMasked at *
    simp only [sentTexts_append]
    rw [h]
    cases st.currentReaction <;> simp [sentTexts]

theorem sm_createNewTodoMessage (km : List String) (tl : String) (st : HSt)
    (h : SentMasked km st) : SentMasked km (createNewTodoMessage km tl st) := by
  unfold createNewTodoMessage
  exact sm_sendPost km tl st h

theorem sm_updateTaskProgressReaction (km : List String) (f : Bool) (todos : List Todo)
    (st : HSt) (h : SentMasked km st) :
    SentMasked km (updateTaskProgressReaction f todos st) := by
  unfold updateTaskProgressReaction
  cases aggMarker todos with
  | none => exact h
  | some e => exact sm_updateMessageReaction km e f st h

theorem sm_handleTodoUpdate (km : List String) (f1 f2 : Bool) (input : ToolInput)
    (sid : Option String) (st : HSt) (h : SentMasked km st) :
    SentMasked km (handleTodoUpdate km f1 f2 input sid st) := by
  unfold handleTodoUpdate
  cases sid with
  | none => exact h
  | some s =>
    cases input.todos with
    | none => exact h
    | some newTodos =>
      dsimp only
      split
      · apply sm_updateTaskProgressReaction
        split
        · apply sm_sendPost
          split
          · split_ifs
            · exact sm_createNewTodoMessage _ _ _ (sm_sendUpdate _ _ _ _ h)
            · exact sm_sendUpdate _ _ _ _ h
          · exact sm_createNewTodoMessage _ _ _ h
        · split
          · split_ifs
            · exact sm_createNewTodoMessage _ _ _ (sm_sendUpdate _ _ _ _ h)
            · exact sm_sendUpdate _ _ _ _ h
          · exact sm_createNewTodoMessage _ _ _ h
      · exact h

theorem sm_updateResponse (km : List String) (e t : String) (st : HSt)
    (h : SentMasked km st) : SentMasked km (updateResponse km e t st) := by
  unfold updateResponse
  cases st.responseMessageTs with
  | none => exact h
  | some ts =>
    dsimp only
    split_ifs
    · exact sm_sendPost _ _ _ (sm_sendUpdate _ _ _ _ h)
    · exact sm_sendUpdate _ _ _ _ h

theorem sm_stepEvent (cfg : Cfg) (m : SDKMessage) (st : HSt)
    (h : SentMasked cfg.km st) : SentMasked cfg.km (stepEvent cfg m st) := by
  cases m with
  | result subtype result =>
    simp only [stepEvent]
    split_ifs with hsub
    · cases result with
      | none => exact h
      | some r =>
        dsimp only
        split_ifs <;> exact h
    · exact h
  | assistant content =>
    simp only [stepEvent]
    by_cases htool : content.any isToolUseBlock = true
    · rw [if_pos htool]
      have h1 : SentMasked cfg.km (updateMessageReaction "⚙️" cfg.addFails st) :=
        sm_updateMessageReaction _ _ _ _ h
      have h2 : SentMasked cfg.km (match content.find? isTodoWriteBlock with
          | some (.toolUse _ input) =>
            handleTodoUpdate cfg.km cfg.todoUpdateFails cfg.addFails input cfg.sessionId
              (updateMessageReaction "⚙️" cfg.addFails st)
          | _ => updateMessageReaction "⚙️" cfg.addFails st) := by
        cases hf : content.find? isTodoWriteBlock with
        | none => exact h1
        | some b =>
          cases b with
          | text s => exact h1
          | toolUse n input => exact sm_handleTodoUpdate _ _ _ _ _ _ h1
      by_cases hc : formatToolUse content ≠ ""
      · rw [if_pos hc]
        exact sm_updateResponse _ _ _ _ h2
      · rw [if_neg hc]
        exact h2
    · rw [if_neg htool]
      by_cases hc : extractTextContent content ≠ ""
      · rw [if_pos hc]
        exact sm_updateResponse _ _ _ _ h
      · rw [if_neg hc]
        exact h

theorem sm_runLoop (cfg : Cfg) :
    ∀ (events : List SDKMessage) (st : HSt), SentMasked cfg.km st →
      SentMasked cfg.km (runLoop cfg events st) := by
  intro events
  induction events with
  | nil => intro st h; exact h
  | cons m t ih =>
    intro st h
    exact ih (stepEvent cfg m st) (sm_stepEvent cfg m st h)

theorem sm_runTurn (cfg : Cfg) (events : List SDKMessage) (abortAt : Option Nat)
    (term : StreamTerm) (st0 : HSt) (h : SentMasked cfg.km st0) :
    SentMasked cfg.km (runTurn cfg events abortAt term st0) := by
  have hchain : SentMasked cfg.km (runLoop cfg
      (events.take (match abortAt with
        | some a => min a events.length
        | none => events.length))
      (updateMessageReaction "🤔" cfg.addFails
        ({ (sendPost cfg.km "🤔 *Thinking...*" st0).1 with
            responseMessageTs := some (sendPost cfg.km "🤔 *Thinking...*" st0).2,
            statuses := (sendPost cfg.km "🤔 *Thinking...*" st0).1.statuses
              ++ [("🤔", "Thinking...")] } : HSt))) :=
    sm_runLoop cfg _ _ (sm_updateMessageReaction _ _ _ _ (sm_sendPost _ _ _ h))
  simp only [runTurn]
  split_ifs
  · exact sm_updateMessageReaction _ _ _ _ (sm_updateResponse _ _ _ _ hchain)
  · cases term with
    | ok => exact sm_updateMessageReaction _ _ _ _ (sm_updateResponse _ _ _ _ hchain)
    | err name msg =>
      dsimp only
      split_ifs
      all_goals exact sm_updateMessageReaction _ _ _ _ (sm_updateResponse _ _ _ _ hchain)

set_option maxHeartbeats 1600000

/-- C4: every text the handler transmits to the chat surface — posts and
in-place updates alike, including file notices, command replies, status,
error, todo-list and welcome text — is exactly maskText applied to the
composed text immediately before transmission; no transmission path of
handleMessage or handleChannelJoin bypasses maskText. -/
theorem allTransmissionsMasked (o : Oracles) (ev : Event) (reg : Reg)
    (km : List String) (channelName baseDirectory : Option String) :
    sentTexts (handleMessage o ev reg).ops
      = (handleMessage o ev reg).composed.map (maskText o.km)
    ∧ sentTexts (handleChannelJoin km channelName baseDirectory {}).ops
      = (handleChannelJoin km channelName baseDirectory {}).composed.map (maskText km) := by
  have hbase : ∀ km0 : List String, SentMasked km0 ({} : HSt) := by
    intro km0
    unfold SentMasked sentTexts
    rfl
  constructor
  · simp only [handleMessage]
    set pf := (if ev.hasFiles then o.processedFiles else []) with hpf
    set st0 := (if 0 < pf.length then
        (sendPost o.km ("📎 Processing " ++ toString pf.length ++ " file(s): "
          ++ String.intercalate ", " pf) ({} : HSt)).1
      else ({} : HSt)) with hst0
    have h0 : SentMasked o.km st0 := by
      rw [hst0]
      split_ifs
      · exact sm_sendPost _ _ _ (hbase o.km)
      · exact hbase o.km
    by_cases hearly : (textFalsy ev.text = true ∧ pf.length = 0)
    · rw [if_pos hearly]
      exact h0
    · rw [if_neg hearly]
      rcases hsd : (if textFalsy ev.text = true then (none : Option String)
          else o.parseSetResult) with _ | p
      · dsimp only
        by_cases hget : ((!textFalsy ev.text) = true ∧ o.isGetCmd = true)
        · rw [if_pos hget]
          exact sm_sendPost _ _ _ h0
        · rw [if_neg hget]
          by_cases hinfo : ((!textFalsy ev.text) = true ∧ o.isMcpInfo = true)
          · rw [if_pos hinfo]
            exact sm_sendPost _ _ _ h0
          · rw [if_neg hinfo]
            by_cases hreload : ((!textFalsy ev.text) = true ∧ o.isMcpReload = true)
            · rw [if_pos hreload]
              exact sm_sendPost _ _ _ h0
            · rw [if_neg hreload]
              exact sm_runTurn _ _ _ _ _ h0
      · dsimp only
        exact sm_sendPost _ _ _ h0
  · unfold handleChannelJoin
    exact sm_sendPost _ _ _ (hbase km)

set_option maxHeartbeats 200000

end SlackBot
